import Mathlib

/-!
Verification development for the Incarnate avatar-generation pipeline.

The definitions below are a shallow embedding of the generation logic:

* `executeGenerationLoop` (from `App.tsx`): the critique-and-refinement
  loop.  Images are identified by their generation index (`0` is the
  initial V1 concept, index `k` is the image produced by the `k`-th
  ImageGenerator call).  The critic is modelled as a stream
  `scores : Nat → Nat` giving the score returned by the `i`-th critique
  call; the `i`-th critique call always critiques image `i`.
* `retryGo` / `generateAvatarVideoRetry` (from
  `services/geminiService.ts`, `generateAvatarVideo`): the bounded
  retry loop around video generation.
* `pollGo` / `waitForTaskCompletion` (from `services/tripoService.ts`):
  the task poller.
* `optimizePromptResult`, `generateAvatarImageRequest` (from
  `services/geminiService.ts`): result handling of the prompt
  optimizer and the request built by the image generator.
-/

namespace Incarnate

/-- `const MAX_REFINEMENT_LOOPS = 3` (App.tsx). -/
def MAX_REFINEMENT_LOOPS : Nat := 3

/-- `const QUALITY_THRESHOLD = 85` (App.tsx). -/
def QUALITY_THRESHOLD : Nat := 85

/-- The mutable state of `executeGenerationLoop`'s critique loop.
`currentImage`, `bestImage` are generation indices of images;
`genCount` counts ImageGenerator calls made so far (the initial V1
generation included), `critiqueCount` counts critique calls made so
far. -/
structure LoopState where
  loops : Nat
  bestImage : Nat
  bestScore : Nat
  isSatisfied : Bool
  currentImage : Nat
  genCount : Nat
  critiqueCount : Nat
deriving Repr, DecidableEq

/-- State on entry to the while loop: V1 (image 0) has just been
generated (`genCount = 1`), `loops = 0`, `bestImage = currentImage`
is V1 and `bestScore = 0`, not satisfied. -/
def initLoopState : LoopState :=
  { loops := 0, bestImage := 0, bestScore := 0, isSatisfied := false,
    currentImage := 0, genCount := 1, critiqueCount := 0 }

/-- One iteration of the while-loop body of `executeGenerationLoop`:
critique the current image (`s` is the critic's score), update the
best-tracking with a strict `>` comparison, then either mark satisfied
(inclusive `>=` threshold test) or refine the prompt and regenerate —
the regenerated image gets the next fresh index `genCount` — and
increment the loop counter. -/
def critiqueStep (scores : Nat → Nat) (st : LoopState) : LoopState :=
  let s := scores st.critiqueCount
  let tracked :=
    if st.bestScore < s then
      { st with critiqueCount := st.critiqueCount + 1,
                bestScore := s, bestImage := st.currentImage }
    else
      { st with critiqueCount := st.critiqueCount + 1 }
  if QUALITY_THRESHOLD ≤ s then
    { tracked with isSatisfied := true }
  else
    { tracked with currentImage := tracked.genCount,
                   genCount := tracked.genCount + 1,
                   loops := tracked.loops + 1 }

/-- The while loop `while (loops < MAX_REFINEMENT_LOOPS && !isSatisfied)`,
written with a fuel argument; `loopGo_fixpoint` below shows that
`MAX_REFINEMENT_LOOPS` units of fuel make the guard false on the final
state, so `runLoop` computes the exact result of the source's while
loop. -/
def loopGo (scores : Nat → Nat) : Nat → LoopState → LoopState
  | 0, st => st
  | fuel + 1, st =>
    if st.loops < MAX_REFINEMENT_LOOPS ∧ st.isSatisfied = false then
      loopGo scores fuel (critiqueStep scores st)
    else st

/-- The critique loop of `executeGenerationLoop`, from the freshly
generated V1 concept to loop exit. -/
def runLoop (scores : Nat → Nat) : LoopState :=
  loopGo scores MAX_REFINEMENT_LOOPS initLoopState

/-- Post-loop reconciliation: `if (currentImage !== bestImage)` restore
the best image. -/
def reconcile (st : LoopState) : LoopState :=
  if st.currentImage = st.bestImage then st
  else { st with currentImage := st.bestImage }

/-- The critique loop followed by the post-loop restoration of the best
image; `currentImage` of the result is the image the loop surfaces
(for approval, or to the video stage). -/
def executeGenerationLoop (scores : Nat → Nat) : LoopState :=
  reconcile (runLoop scores)

/-- The loop body never runs once the guard fails: with at least
`MAX_REFINEMENT_LOOPS - loops` fuel (or once satisfied), the final
state falsifies the guard, so the fuel never cuts the loop short. -/
theorem loopGo_fixpoint (scores : Nat → Nat) :
    ∀ fuel st, (st.isSatisfied = true ∨ MAX_REFINEMENT_LOOPS ≤ st.loops + fuel) →
      ¬((loopGo scores fuel st).loops < MAX_REFINEMENT_LOOPS ∧
        (loopGo scores fuel st).isSatisfied = false) := by
  intro fuel
  induction fuel with
  | zero =>
    intro st h
    simp only [loopGo]
    rcases h with h | h
    · intro hc; rw [h] at hc; exact absurd hc.2 (by simp)
    · intro hc; omega
  | succ n ih =>
    intro st h
    simp only [loopGo]
    split
    · rename_i hg
      apply ih
      have hmax : MAX_REFINEMENT_LOOPS ≤ st.loops + (n + 1) := by
        rcases h with h | h
        · exact absurd h (by simp [hg.2])
        · exact h
      simp only [critiqueStep]
      split_ifs <;> simp <;> omega
    · rename_i hg
      exact hg

/-- Invariant holding for every state of the critique loop that is
reachable from `initLoopState` under score stream `scores`:

* counter alignment — while unsatisfied, image `critiqueCount` is the
  current one, `critiqueCount + 1` images have been generated and
  `loops = critiqueCount`; once satisfied the loop stopped right after
  critiquing the current image;
* threshold discipline — while unsatisfied every score seen so far was
  below the threshold; once satisfied only the last score reached it;
* best tracking — `bestImage` is the earliest critiqued image whose
  score equals the maximum score seen (`bestScore`), thanks to the
  strict `>` comparison. -/
def Inv (scores : Nat → Nat) (st : LoopState) : Prop :=
  st.loops ≤ MAX_REFINEMENT_LOOPS ∧
  (st.isSatisfied = false →
    st.currentImage = st.critiqueCount ∧
    st.genCount = st.critiqueCount + 1 ∧
    st.loops = st.critiqueCount ∧
    st.bestScore < QUALITY_THRESHOLD ∧
    (∀ i, i < st.critiqueCount → scores i < QUALITY_THRESHOLD)) ∧
  (st.isSatisfied = true →
    st.currentImage + 1 = st.critiqueCount ∧
    st.genCount = st.critiqueCount ∧
    st.loops + 1 = st.critiqueCount ∧
    st.bestImage = st.currentImage ∧
    QUALITY_THRESHOLD ≤ st.bestScore ∧
    (∀ i, i + 1 < st.critiqueCount → scores i < QUALITY_THRESHOLD)) ∧
  (st.critiqueCount = 0 → st.bestScore = 0 ∧ st.bestImage = 0) ∧
  (0 < st.critiqueCount →
    st.bestImage < st.critiqueCount ∧
    scores st.bestImage = st.bestScore ∧
    (∀ i, i < st.critiqueCount → scores i ≤ st.bestScore) ∧
    (∀ j, j < st.bestImage → scores j < st.bestScore))

theorem inv_init (scores : Nat → Nat) : Inv scores initLoopState := by
  refine ⟨?_, ?_, ?_, ?_, ?_⟩ <;>
    simp [initLoopState, MAX_REFINEMENT_LOOPS, QUALITY_THRESHOLD]

theorem critiqueStep_inv (scores : Nat → Nat) (st : LoopState)
    (hg : st.loops < MAX_REFINEMENT_LOOPS) (hs : st.isSatisfied = false)
    (h : Inv scores st) : Inv scores (critiqueStep scores st) := by
  obtain ⟨lo, bi, bs, sat, ci, ga, cc⟩ := st
  subst hs
  obtain ⟨hl, hu, hsat, hz, hp⟩ := h
  dsimp only at hg hl hu hz hp
  obtain ⟨hci, hgc, hlc, hbq, hall⟩ := hu rfl
  subst hci hgc hlc
  clear hu hsat
  simp only [Inv, critiqueStep]
  split_ifs with hthr hbest hbest <;> dsimp only
  · -- score meets the (inclusive) threshold; best tracking updated since
    -- every earlier score was below the threshold
    refine ⟨hl, by simp, fun _ => ⟨rfl, rfl, rfl, rfl, hthr, ?_⟩, by omega,
      fun _ => ⟨by omega, rfl, ?_, ?_⟩⟩
    · intro i hi
      exact hall i (by omega)
    · intro i hi
      rcases Nat.lt_succ_iff_lt_or_eq.mp hi with hi' | hi'
      · have := (hp (by omega)).2.2.1 i hi'
        omega
      · subst hi'; omega
    · intro j hj
      have := (hp (by omega)).2.2.1 j hj
      omega
  · -- threshold met but best not updated: impossible, previous best < threshold
    omega
  · -- below threshold, best updated: refine and regenerate
    refine ⟨by omega, fun _ => ⟨rfl, rfl, rfl, by omega, ?_⟩, by simp, by omega,
      fun _ => ⟨by omega, rfl, ?_, ?_⟩⟩
    · intro i hi
      rcases Nat.lt_succ_iff_lt_or_eq.mp hi with hi' | hi'
      · exact hall i hi'
      · subst hi'; omega
    · intro i hi
      rcases Nat.lt_succ_iff_lt_or_eq.mp hi with hi' | hi'
      · have := (hp (by omega)).2.2.1 i hi'
        omega
      · subst hi'; omega
    · intro j hj
      have := (hp (by omega)).2.2.1 j hj
      omega
  · -- below threshold, best kept (strict > failed): refine and regenerate
    refine ⟨by omega, fun _ => ⟨rfl, rfl, rfl, by omega, ?_⟩, by simp, by omega,
      fun _ => ?_⟩
    · intro i hi
      rcases Nat.lt_succ_iff_lt_or_eq.mp hi with hi' | hi'
      · exact hall i hi'
      · subst hi'; omega
    · rcases Nat.eq_zero_or_pos lo with hc0 | hc0
      · subst hc0
        obtain ⟨hb0, hi0⟩ := hz rfl
        subst hb0 hi0
        refine ⟨by omega, by omega, ?_, ?_⟩
        · intro i hi
          have hiz : i = 0 := by omega
          subst hiz; omega
        · intro j hj; omega
      · obtain ⟨hb1, hb2, hb3, hb4⟩ := hp hc0
        refine ⟨by omega, hb2, ?_, hb4⟩
        intro i hi
        rcases Nat.lt_succ_iff_lt_or_eq.mp hi with hi' | hi'
        · exact hb3 i hi'
        · subst hi'; omega

theorem loopGo_inv (scores : Nat → Nat) :
    ∀ fuel st, Inv scores st → Inv scores (loopGo scores fuel st) := by
  intro fuel
  induction fuel with
  | zero => intro st h; simpa only [loopGo] using h
  | succ n ih =>
    intro st h
    simp only [loopGo]
    split
    · rename_i hgu
      exact ih _ (critiqueStep_inv scores st hgu.1 hgu.2 h)
    · exact h

/-- The invariant holds of the critique loop's final state. -/
theorem runLoop_inv (scores : Nat → Nat) : Inv scores (runLoop scores) :=
  loopGo_inv scores MAX_REFINEMENT_LOOPS initLoopState (inv_init scores)

/-- The loop guard is false at exit: satisfaction or exhaustion. -/
theorem runLoop_exit (scores : Nat → Nat) :
    (runLoop scores).isSatisfied = true ∨
      MAX_REFINEMENT_LOOPS ≤ (runLoop scores).loops := by
  have h := loopGo_fixpoint scores MAX_REFINEMENT_LOOPS initLoopState
    (Or.inr (by simp [initLoopState]))
  rw [show loopGo scores MAX_REFINEMENT_LOOPS initLoopState
        = runLoop scores from rfl] at h
  rw [not_and_or] at h
  rcases h with h | h
  · right; omega
  · left; simpa using h

theorem critiqueStep_cc (scores : Nat → Nat) (st : LoopState) :
    (critiqueStep scores st).critiqueCount = st.critiqueCount + 1 := by
  simp only [critiqueStep]
  split_ifs <;> rfl

theorem loopGo_cc_mono (scores : Nat → Nat) :
    ∀ fuel st, st.critiqueCount ≤ (loopGo scores fuel st).critiqueCount := by
  intro fuel
  induction fuel with
  | zero => intro st; simp [loopGo]
  | succ n ih =>
    intro st
    simp only [loopGo]
    split
    · have h1 := ih (critiqueStep scores st)
      have h2 := critiqueStep_cc scores st
      omega
    · exact le_refl _

/-- The loop always critiques at least once (the V1 critique). -/
theorem runLoop_cc_pos (scores : Nat → Nat) :
    1 ≤ (runLoop scores).critiqueCount := by
  have h1 : runLoop scores =
      loopGo scores 2 (critiqueStep scores initLoopState) := rfl
  have h2 := loopGo_cc_mono scores 2 (critiqueStep scores initLoopState)
  have h3 := critiqueStep_cc scores initLoopState
  have h4 : initLoopState.critiqueCount = 0 := rfl
  rw [h1]
  omega

theorem exec_currentImage_of_ne (scores : Nat → Nat)
    (h : (runLoop scores).currentImage ≠ (runLoop scores).bestImage) :
    (executeGenerationLoop scores).currentImage = (runLoop scores).bestImage := by
  simp only [executeGenerationLoop, reconcile]
  rw [if_neg h]

/-- C1: if any critique score fed to the loop (that is, any score the
loop actually consumes) reaches the inclusive `>=` threshold, the loop
terminates satisfied at the first such critique: exactly `i + 1`
critiques happen, and exactly `i + 1` ImageGenerator calls (the initial
V1 plus the `i` pre-threshold refine cycles) — so no further
ImageGenerator call occurs after the satisfying iteration. -/
theorem c1_threshold_terminates_satisfied (scores : Nat → Nat) (i : Nat)
    (_hfirst : ∀ j, j < i → scores j < QUALITY_THRESHOLD)
    (hreach : QUALITY_THRESHOLD ≤ scores i)
    (hfed : i < (runLoop scores).critiqueCount) :
    (runLoop scores).isSatisfied = true ∧
    (runLoop scores).critiqueCount = i + 1 ∧
    (runLoop scores).genCount = i + 1 := by
  obtain ⟨hl, hu, hsat, hz, hp⟩ := runLoop_inv scores
  cases hbs : (runLoop scores).isSatisfied with
  | false =>
    have := (hu hbs).2.2.2.2 i hfed
    omega
  | true =>
    obtain ⟨h1, h2, h3, h4, h5, h6⟩ := hsat hbs
    have hcc : (runLoop scores).critiqueCount = i + 1 := by
      by_contra hne
      have hlt : i + 1 < (runLoop scores).critiqueCount := by omega
      have := h6 i hlt
      omega
    exact ⟨rfl, hcc, by omega⟩

theorem c1_witness :
    (∀ j, j < 0 → (fun _ : Nat => 90) j < QUALITY_THRESHOLD) ∧
    QUALITY_THRESHOLD ≤ (fun _ : Nat => 90) 0 ∧
    0 < (runLoop (fun _ => 90)).critiqueCount ∧
    ((runLoop (fun _ => 90)).isSatisfied = true ∧
     (runLoop (fun _ => 90)).critiqueCount = 0 + 1 ∧
     (runLoop (fun _ => 90)).genCount = 0 + 1) :=
  ⟨fun j hj => absurd hj (by omega), by decide, by decide,
    c1_threshold_terminates_satisfied (fun _ => 90) 0
      (fun j hj => absurd hj (by omega)) (by decide) (by decide)⟩

/-- C2: after the loop terminates, `bestScore` equals the maximum score
over all critique calls (the V1 critique included — the loop always
critiques at least once), and best-score tracking is monotonically
non-decreasing across iterations. -/
theorem c2_best_score_is_max (scores : Nat → Nat) :
    1 ≤ (runLoop scores).critiqueCount ∧
    (∀ i, i < (runLoop scores).critiqueCount →
      scores i ≤ (runLoop scores).bestScore) ∧
    (∃ i, i < (runLoop scores).critiqueCount ∧
      (runLoop scores).bestScore = scores i) ∧
    (∀ st : LoopState, st.bestScore ≤ (critiqueStep scores st).bestScore) := by
  obtain ⟨hl, hu, hsat, hz, hp⟩ := runLoop_inv scores
  have hcc := runLoop_cc_pos scores
  obtain ⟨hb1, hb2, hb3, hb4⟩ := hp (by omega)
  refine ⟨hcc, hb3, ⟨(runLoop scores).bestImage, hb1, hb2.symm⟩, ?_⟩
  intro st
  simp only [critiqueStep]
  split_ifs <;> dsimp only <;> omega

theorem c2_witness :
    1 ≤ (runLoop (fun i => [50, 70, 60].getD i 0)).critiqueCount ∧
    (∀ i, i < (runLoop (fun i => [50, 70, 60].getD i 0)).critiqueCount →
      [50, 70, 60].getD i 0 ≤ (runLoop (fun i => [50, 70, 60].getD i 0)).bestScore) ∧
    (∃ i, i < (runLoop (fun i => [50, 70, 60].getD i 0)).critiqueCount ∧
      (runLoop (fun i => [50, 70, 60].getD i 0)).bestScore = [50, 70, 60].getD i 0) ∧
    (∀ st : LoopState, st.bestScore ≤
      (critiqueStep (fun i => [50, 70, 60].getD i 0) st).bestScore) :=
  c2_best_score_is_max (fun i => [50, 70, 60].getD i 0)

/-- C3: when the loop exhausts without satisfaction, the surfaced image
is the best one: the returned image is `bestImage`, a critiqued image
whose score is maximal among all recorded scores, and — because best
tracking uses strict `>` — every earlier image scored strictly lower,
so ties go to the earliest-seen maximum; the final `currentImage`
always differs from `bestImage` here, and reconciliation restores the
best image exactly when they differ. -/
theorem c3_exhaustion_returns_best (scores : Nat → Nat)
    (h : (runLoop scores).isSatisfied = false) :
    (executeGenerationLoop scores).currentImage = (runLoop scores).bestImage ∧
    (runLoop scores).bestImage < (runLoop scores).critiqueCount ∧
    scores (runLoop scores).bestImage = (runLoop scores).bestScore ∧
    (∀ i, i < (runLoop scores).critiqueCount →
      scores i ≤ scores (runLoop scores).bestImage) ∧
    (∀ j, j < (runLoop scores).bestImage →
      scores j < scores (runLoop scores).bestImage) ∧
    (runLoop scores).currentImage ≠ (runLoop scores).bestImage ∧
    (∀ st : LoopState, st.currentImage ≠ st.bestImage →
      (reconcile st).currentImage = st.bestImage) := by
  obtain ⟨hl, hu, hsat, hz, hp⟩ := runLoop_inv scores
  obtain ⟨hc1, hc2, hc3, hc4, hc5⟩ := hu h
  have hcc := runLoop_cc_pos scores
  obtain ⟨hb1, hb2, hb3, hb4⟩ := hp (by omega)
  have hne : (runLoop scores).currentImage ≠ (runLoop scores).bestImage := by
    omega
  refine ⟨exec_currentImage_of_ne scores hne, hb1, hb2, ?_, ?_, hne, ?_⟩
  · intro i hi
    have := hb3 i hi
    omega
  · intro j hj
    have := hb4 j hj
    omega
  · intro st hst
    simp only [reconcile]
    rw [if_neg hst]

theorem c3_witness :
    (runLoop (fun i => [10, 30, 20].getD i 0)).isSatisfied = false ∧
    ((executeGenerationLoop (fun i => [10, 30, 20].getD i 0)).currentImage =
      (runLoop (fun i => [10, 30, 20].getD i 0)).bestImage ∧
     (runLoop (fun i => [10, 30, 20].getD i 0)).bestImage <
      (runLoop (fun i => [10, 30, 20].getD i 0)).critiqueCount ∧
     [10, 30, 20].getD (runLoop (fun i => [10, 30, 20].getD i 0)).bestImage 0 =
      (runLoop (fun i => [10, 30, 20].getD i 0)).bestScore ∧
     (∀ i, i < (runLoop (fun i => [10, 30, 20].getD i 0)).critiqueCount →
       [10, 30, 20].getD i 0 ≤
        [10, 30, 20].getD (runLoop (fun i => [10, 30, 20].getD i 0)).bestImage 0) ∧
     (∀ j, j < (runLoop (fun i => [10, 30, 20].getD i 0)).bestImage →
       [10, 30, 20].getD j 0 <
        [10, 30, 20].getD (runLoop (fun i => [10, 30, 20].getD i 0)).bestImage 0) ∧
     (runLoop (fun i => [10, 30, 20].getD i 0)).currentImage ≠
      (runLoop (fun i => [10, 30, 20].getD i 0)).bestImage ∧
     (∀ st : LoopState, st.currentImage ≠ st.bestImage →
       (reconcile st).currentImage = st.bestImage)) :=
  ⟨by decide, c3_exhaustion_returns_best (fun i => [10, 30, 20].getD i 0) (by decide)⟩

/-- The critic's score sequence of the spec's [80, 95, 70] example. -/
def scoresC4 : Nat → Nat := fun i => [80, 95, 70].getD i 0

/-- C4 counterexample: with critique scores [80, 95, 70] the second
critique already meets the inclusive threshold (95 ≥ 85), so the loop
exits satisfied after 2 critiques with only 2 ImageGenerator calls
ever made — no 3rd (worse-scoring) image is generated, and the
post-loop reconciliation does not fire (`currentImage = bestImage`),
contrary to the claim that a 3rd image exercises reconciliation. -/
theorem c4_counterexample :
    (runLoop scoresC4).isSatisfied = true ∧
    (runLoop scoresC4).critiqueCount = 2 ∧
    (runLoop scoresC4).genCount = 2 ∧
    (runLoop scoresC4).currentImage = (runLoop scoresC4).bestImage ∧
    reconcile (runLoop scoresC4) = runLoop scoresC4 := by decide

/-- C4 amended: with scores [80, 95, 70] the best image is indeed the
one critiqued with 95 (image 1, generated in the refine cycle after
the 80-score critique) and the loop's returned image is that one; but
the loop terminates satisfied at the 2nd critique, so the 3rd score
is never consumed, no 3rd image is generated, and the post-loop
reconciliation step is a no-op rather than being exercised. -/
theorem c4_amended :
    (runLoop scoresC4).isSatisfied = true ∧
    (runLoop scoresC4).bestScore = 95 ∧
    (runLoop scoresC4).bestImage = 1 ∧
    (executeGenerationLoop scoresC4).currentImage = 1 ∧
    (runLoop scoresC4).critiqueCount = 2 ∧
    (runLoop scoresC4).genCount = 2 := by decide

/-- C5: when the loop exits by exhaustion, it has generated exactly one
more image than it critiqued (`genCount = critiqueCount + 1`); the
final `currentImage` is that last, never-critiqued image (index
`genCount - 1 = critiqueCount`, while only indices `< critiqueCount`
are critiqued); the returned image is a critiqued one, never the last
one, so reconciliation always replaces the final uncritiqued candidate;
and when no critique score exceeded 0, the returned image is the
initial V1 image (index 0). -/
theorem c5_exhaustion_last_never_returned (scores : Nat → Nat)
    (h : (runLoop scores).isSatisfied = false) :
    (runLoop scores).genCount = (runLoop scores).critiqueCount + 1 ∧
    (runLoop scores).currentImage = (runLoop scores).critiqueCount ∧
    (executeGenerationLoop scores).currentImage < (runLoop scores).critiqueCount ∧
    (executeGenerationLoop scores).currentImage ≠ (runLoop scores).currentImage ∧
    (runLoop scores).currentImage ≠ (runLoop scores).bestImage ∧
    ((∀ i, i < (runLoop scores).critiqueCount → scores i = 0) →
      (executeGenerationLoop scores).currentImage = 0) := by
  obtain ⟨hl, hu, hsat, hz, hp⟩ := runLoop_inv scores
  obtain ⟨hc1, hc2, hc3, hc4, hc5⟩ := hu h
  have hcc := runLoop_cc_pos scores
  obtain ⟨hb1, hb2, hb3, hb4⟩ := hp (by omega)
  have hne : (runLoop scores).currentImage ≠ (runLoop scores).bestImage := by
    omega
  have hexec := exec_currentImage_of_ne scores hne
  refine ⟨by omega, hc1, by omega, by omega, hne, ?_⟩
  intro hzero
  have hbz : scores (runLoop scores).bestImage = 0 := hzero _ hb1
  rcases Nat.eq_zero_or_pos (runLoop scores).bestImage with hb0 | hb0
  · omega
  · have h0 := hb4 0 hb0
    have := hzero 0 (by omega)
    omega

theorem c5_witness :
    (runLoop (fun _ => 0)).isSatisfied = false ∧
    ((runLoop (fun _ => 0)).genCount = (runLoop (fun _ => 0)).critiqueCount + 1 ∧
     (runLoop (fun _ => 0)).currentImage = (runLoop (fun _ => 0)).critiqueCount ∧
     (executeGenerationLoop (fun _ => 0)).currentImage <
       (runLoop (fun _ => 0)).critiqueCount ∧
     (executeGenerationLoop (fun _ => 0)).currentImage ≠
       (runLoop (fun _ => 0)).currentImage ∧
     (runLoop (fun _ => 0)).currentImage ≠ (runLoop (fun _ => 0)).bestImage ∧
     ((∀ i, i < (runLoop (fun _ => 0)).critiqueCount → (fun _ : Nat => 0) i = 0) →
       (executeGenerationLoop (fun _ => 0)).currentImage = 0)) :=
  ⟨by decide, c5_exhaustion_last_never_returned (fun _ => 0) (by decide)⟩

/-- C6: for every score stream, the iteration counter never exceeds
`MAX_REFINEMENT_LOOPS` after the loop exits, at most
`MAX_REFINEMENT_LOOPS` refine+regenerate cycles happen (generator
calls beyond the initial V1 number `genCount - 1 ≤ 3`), and the loop
body never runs from a state where the counter has reached the
maximum or the satisfied flag is set. -/
theorem c6_loop_bounded (scores : Nat → Nat) :
    (runLoop scores).loops ≤ MAX_REFINEMENT_LOOPS ∧
    (runLoop scores).genCount - 1 ≤ MAX_REFINEMENT_LOOPS ∧
    (∀ fuel st, ¬(st.loops < MAX_REFINEMENT_LOOPS ∧ st.isSatisfied = false) →
      loopGo scores fuel st = st) := by
  obtain ⟨hl, hu, hsat, hz, hp⟩ := runLoop_inv scores
  refine ⟨hl, ?_, ?_⟩
  · cases hbs : (runLoop scores).isSatisfied with
    | false =>
      obtain ⟨hc1, hc2, hc3, hc4, hc5⟩ := hu hbs
      omega
    | true =>
      obtain ⟨h1, h2, h3, h4, h5, h6⟩ := hsat hbs
      omega
  · intro fuel st hst
    cases fuel with
    | zero => rfl
    | succ n =>
      simp only [loopGo]
      rw [if_neg hst]

theorem c6_witness :
    (runLoop (fun _ => 99)).loops ≤ MAX_REFINEMENT_LOOPS ∧
    (runLoop (fun _ => 99)).genCount - 1 ≤ MAX_REFINEMENT_LOOPS ∧
    loopGo (fun _ => 99) 3 (runLoop (fun _ => 99)) = runLoop (fun _ => 99) :=
  ⟨(c6_loop_bounded (fun _ => 99)).1, (c6_loop_bounded (fun _ => 99)).2.1,
    (c6_loop_bounded (fun _ => 99)).2.2 3 (runLoop (fun _ => 99)) (by decide)⟩

/-! ## Retry policy around video generation
(`generateAvatarVideo`, `services/geminiService.ts`). -/

/-- `const MAX_RETRIES = 3` inside `generateAvatarVideo`. -/
def MAX_RETRIES : Nat := 3

/-- The fixed backoff `delay(4000)` taken before each retry. -/
def baseDelayMs : Nat := 4000

/-- `startsWith pat s`: `pat` is an initial segment of `s`. -/
def startsWith : List Char → List Char → Bool
  | [], _ => true
  | _ :: _, [] => false
  | p :: ps, c :: cs => p == c && startsWith ps cs

/-- `containsSeq pat s`: `pat` occurs contiguously inside `s`
(JavaScript's `String.prototype.includes`). -/
def containsSeq (pat : List Char) : List Char → Bool
  | [] => pat.isEmpty
  | c :: rest => startsWith pat (c :: rest) || containsSeq pat rest

/-- `err.message?.toLowerCase().includes('internal') ||
err.message?.toLowerCase().includes('server')`: the classifier deciding
which failures are retried. -/
def isInternalError (msg : String) : Bool :=
  containsSeq "internal".toList (msg.toList.map Char.toLower) ||
  containsSeq "server".toList (msg.toList.map Char.toLower)

/-- Outcome of one underlying video-generation attempt: the operation
reaches a download URI, or throws an error with the given message. -/
inductive VideoAttempt where
  | ok (uri : String)
  | err (msg : String)
deriving Repr, DecidableEq

/-- The `for (attempt = 1; attempt <= MAX_RETRIES; attempt++)` retry
loop of `generateAvatarVideo`.  `attempts n` is what the `n`-th
(1-based) underlying attempt does.  Returns the result (`ok` URI, or
the propagated last error), the total delay slept in milliseconds, and
the number of attempts made.  On an error, the loop retries only when
attempts remain *and* the message is classified internal/server, after
sleeping `baseDelayMs`; otherwise it breaks and rethrows the last
error. -/
def retryGo (attempts : Nat → VideoAttempt) (attempt : Nat) (delayed : Nat) :
    Except String String × Nat × Nat :=
  match attempts attempt with
  | .ok uri => (Except.ok uri, delayed, attempt)
  | .err msg =>
    if _h : attempt < MAX_RETRIES ∧ isInternalError msg = true then
      retryGo attempts (attempt + 1) (delayed + baseDelayMs)
    else
      (Except.error msg, delayed, attempt)
termination_by MAX_RETRIES - attempt
decreasing_by
  simp only [MAX_RETRIES] at *
  omega

/-- `generateAvatarVideo`'s retry behaviour, starting at attempt 1 with
no delay taken. -/
def generateAvatarVideoRetry (attempts : Nat → VideoAttempt) :
    Except String String × Nat × Nat :=
  retryGo attempts 1 0

/-- C7: the retry policy around video generation.  (i) Transient
(internal/server-classified) errors on attempts 1 and 2 followed by
success on attempt 3 yield the success result after exactly two fixed
`baseDelayMs` delays; (ii) a permanent (non-transient) error on
attempt 1 propagates immediately with no retry and no delay; (iii)
exhausting all 3 attempts rethrows the last error. -/
theorem c7_video_retry_policy :
    (∀ (attempts : Nat → VideoAttempt) (m1 m2 uri : String),
      attempts 1 = .err m1 → isInternalError m1 = true →
      attempts 2 = .err m2 → isInternalError m2 = true →
      attempts 3 = .ok uri →
      generateAvatarVideoRetry attempts =
        (Except.ok uri, 2 * baseDelayMs, 3)) ∧
    (∀ (attempts : Nat → VideoAttempt) (m1 : String),
      attempts 1 = .err m1 → isInternalError m1 = false →
      generateAvatarVideoRetry attempts = (Except.error m1, 0, 1)) ∧
    (∀ (attempts : Nat → VideoAttempt) (m1 m2 m3 : String),
      attempts 1 = .err m1 → isInternalError m1 = true →
      attempts 2 = .err m2 → isInternalError m2 = true →
      attempts 3 = .err m3 →
      generateAvatarVideoRetry attempts =
        (Except.error m3, 2 * baseDelayMs, 3)) := by
  refine ⟨?_, ?_, ?_⟩
  · intro attempts m1 m2 uri h1 hi1 h2 hi2 h3
    simp only [generateAvatarVideoRetry]
    rw [retryGo, h1]
    simp only [hi1, MAX_RETRIES]
    norm_num
    rw [retryGo, h2]
    simp only [hi2, MAX_RETRIES]
    norm_num
    rw [retryGo, h3]
    norm_num [baseDelayMs]
  · intro attempts m1 h1 hi1
    simp only [generateAvatarVideoRetry]
    rw [retryGo, h1]
    simp [hi1]
  · intro attempts m1 m2 m3 h1 hi1 h2 hi2 h3
    simp only [generateAvatarVideoRetry]
    rw [retryGo, h1]
    simp only [hi1, MAX_RETRIES]
    norm_num
    rw [retryGo, h2]
    simp only [hi2, MAX_RETRIES]
    norm_num
    rw [retryGo, h3]
    simp [MAX_RETRIES, baseDelayMs]

/-- Attempt behaviour: transient errors on attempts 1 and 2, success
on attempt 3. -/
def attemptsTransientThenOk : Nat → VideoAttempt := fun n =>
  match n with
  | 1 => VideoAttempt.err "Veo Operation Error: Internal failure"
  | 2 => VideoAttempt.err "Veo State FAILED: server overloaded"
  | _ => VideoAttempt.ok "https://video.example/clip"

/-- Attempt behaviour: a permanent (safety) error on attempt 1. -/
def attemptsPermanent : Nat → VideoAttempt := fun _ =>
  VideoAttempt.err "prompt violates safety policy"

/-- Attempt behaviour: transient errors on every attempt. -/
def attemptsAlwaysTransient : Nat → VideoAttempt := fun n =>
  match n with
  | 1 => VideoAttempt.err "internal error 500"
  | 2 => VideoAttempt.err "backend server hiccup"
  | _ => VideoAttempt.err "Internal deadline exceeded"

theorem c7_witness :
    generateAvatarVideoRetry attemptsTransientThenOk =
      (Except.ok "https://video.example/clip", 2 * baseDelayMs, 3) ∧
    generateAvatarVideoRetry attemptsPermanent =
      (Except.error "prompt violates safety policy", 0, 1) ∧
    generateAvatarVideoRetry attemptsAlwaysTransient =
      (Except.error "Internal deadline exceeded", 2 * baseDelayMs, 3) :=
  ⟨c7_video_retry_policy.1 attemptsTransientThenOk _ _ _
      rfl (by decide) rfl (by decide) rfl,
   c7_video_retry_policy.2.1 attemptsPermanent _ rfl (by decide),
   c7_video_retry_policy.2.2 attemptsAlwaysTransient _ _ _
      rfl (by decide) rfl (by decide) rfl⟩

/-! ## Task poller (`waitForTaskCompletion`, `services/tripoService.ts`). -/

/-- `const pollInterval = 3000` (3 seconds). -/
def pollIntervalMs : Nat := 3000

/-- Default `maxWaitMs = 300000` (5 minutes). -/
def defaultMaxWaitMs : Nat := 300000

/-- The task-status payload the poller consumes (`status.progress`,
`status.status`). -/
structure TaskPoll where
  progress : Nat
  status : String
deriving Repr, DecidableEq

/-- `['failed', 'banned', 'expired', 'cancelled', 'unknown']`. -/
def failureStatuses : List String :=
  ["failed", "banned", "expired", "cancelled", "unknown"]

/-- Poller outcome: resolve with the success payload, reject with a
task-failed error carrying the terminal status, or reject with a
timeout error. -/
inductive PollOutcome where
  | success (data : TaskPoll)
  | taskFailed (status : String)
  | timedOut
deriving Repr, DecidableEq

/-- The `while (Date.now() - startTime < maxWaitMs)` polling loop.
`statuses k` is the payload returned by the `k`-th `getTaskStatus`
call; `elapsed` is the time consumed so far (each non-terminal
iteration sleeps `pollIntervalMs`); the returned list collects the
`(progress, status)` pairs passed to `onProgress`, in call order —
one per status fetched, terminal fetches included. -/
def pollGo (statuses : Nat → TaskPoll) (maxWaitMs k elapsed : Nat)
    (progressLog : List (Nat × String)) :
    PollOutcome × List (Nat × String) :=
  if elapsed < maxWaitMs then
    if (statuses k).status = "success" then
      (PollOutcome.success (statuses k),
        progressLog ++ [((statuses k).progress, (statuses k).status)])
    else if (statuses k).status ∈ failureStatuses then
      (PollOutcome.taskFailed (statuses k).status,
        progressLog ++ [((statuses k).progress, (statuses k).status)])
    else
      pollGo statuses maxWaitMs (k + 1) (elapsed + pollIntervalMs)
        (progressLog ++ [((statuses k).progress, (statuses k).status)])
  else (PollOutcome.timedOut, progressLog)
termination_by maxWaitMs - elapsed
decreasing_by
  simp only [pollIntervalMs]
  omega

/-- `waitForTaskCompletion`: poll from the start, no time elapsed, no
progress callbacks made yet. -/
def waitForTaskCompletion (statuses : Nat → TaskPoll) (maxWaitMs : Nat) :
    PollOutcome × List (Nat × String) :=
  pollGo statuses maxWaitMs 0 0 []

/-- A status payload on which the poller keeps polling: neither the
success terminal state nor a failure terminal state. -/
def NonTerminal (st : TaskPoll) : Prop :=
  st.status ≠ "success" ∧ st.status ∉ failureStatuses

set_option maxRecDepth 2000 in
/-- Running the poller past `n` non-terminal statuses advances the
status index and the elapsed clock and records the `n` progress
callbacks in order. -/
theorem pollGo_skip (statuses : Nat → TaskPoll) (maxWait : Nat) :
    ∀ n k elapsed log,
      (∀ j, j < n → NonTerminal (statuses (k + j))) →
      (∀ j, j < n → elapsed + pollIntervalMs * j < maxWait) →
      pollGo statuses maxWait k elapsed log =
        pollGo statuses maxWait (k + n) (elapsed + pollIntervalMs * n)
          (log ++ (List.range n).map
            (fun j => ((statuses (k + j)).progress, (statuses (k + j)).status))) := by
  intro n
  induction n with
  | zero => intro k elapsed log _ _; simp
  | succ m ih =>
    intro k elapsed log hnt hel
    rw [ih k elapsed log (fun j hj => hnt j (by omega))
        (fun j hj => hel j (by omega))]
    obtain ⟨hns, hnf⟩ := hnt m (by omega)
    conv_lhs => rw [pollGo]
    rw [if_pos (hel m (by omega)), if_neg hns, if_neg hnf]
    have e1 : elapsed + pollIntervalMs * (m + 1)
        = elapsed + pollIntervalMs * m + pollIntervalMs := by ring
    have e2 : k + (m + 1) = k + m + 1 := by ring
    rw [e1, e2, List.range_succ, List.map_append, ← List.append_assoc]
    simp

/-- If every status within the wait budget is non-terminal, the poller
rejects with the timeout error. -/
theorem pollGo_timeout (statuses : Nat → TaskPoll) (maxWait : Nat) :
    ∀ gas elapsed k log, maxWait - elapsed ≤ gas →
      (∀ j, elapsed + pollIntervalMs * j < maxWait →
        NonTerminal (statuses (k + j))) →
      (pollGo statuses maxWait k elapsed log).1 = PollOutcome.timedOut := by
  intro gas
  induction gas with
  | zero =>
    intro elapsed k log hle hnt
    conv_lhs => rw [pollGo]
    rw [if_neg (by omega)]
  | succ n ih =>
    intro elapsed k log hle hnt
    by_cases hel : elapsed < maxWait
    · obtain ⟨hns, hnf⟩ := hnt 0 (by simpa using hel)
      rw [Nat.add_zero] at hns hnf
      conv_lhs => rw [pollGo]
      rw [if_pos hel, if_neg hns, if_neg hnf]
      apply ih
      · simp only [pollIntervalMs]
        omega
      · intro j hj
        have hj' : elapsed + pollIntervalMs * (j + 1) < maxWait := by
          simp only [pollIntervalMs] at hj ⊢
          omega
        have h' := hnt (j + 1) hj'
        rwa [show k + (j + 1) = k + 1 + j from by omega] at h'
    · conv_lhs => rw [pollGo]
      rw [if_neg hel]

/-- C8: the task poller.  (i) On status sequence
[queued, running, running, success] the `onProgress` callback fires
exactly 4 times, in order, and the poller resolves with the success
payload; (ii) when the first terminal status reached within the wait
budget is a failure status (failed/banned/expired/cancelled/unknown),
the poller rejects with a task-failed error carrying that status;
(iii) when no terminal status is reached within `maxWaitMs`, the
poller rejects with the timeout error. -/
theorem c8_task_poller_behaviour :
    (∀ (statuses : Nat → TaskPoll) (p0 p1 p2 p3 : Nat),
      statuses 0 = ⟨p0, "queued"⟩ → statuses 1 = ⟨p1, "running"⟩ →
      statuses 2 = ⟨p2, "running"⟩ → statuses 3 = ⟨p3, "success"⟩ →
      waitForTaskCompletion statuses defaultMaxWaitMs =
        (PollOutcome.success ⟨p3, "success"⟩,
         [(p0, "queued"), (p1, "running"), (p2, "running"), (p3, "success")])) ∧
    (∀ (statuses : Nat → TaskPoll) (k : Nat),
      (∀ j, j < k → NonTerminal (statuses j)) →
      (statuses k).status ∈ failureStatuses →
      pollIntervalMs * k < defaultMaxWaitMs →
      (waitForTaskCompletion statuses defaultMaxWaitMs).1 =
        PollOutcome.taskFailed (statuses k).status) ∧
    (∀ (statuses : Nat → TaskPoll) (maxWait : Nat),
      (∀ j, pollIntervalMs * j < maxWait → NonTerminal (statuses j)) →
      (waitForTaskCompletion statuses maxWait).1 = PollOutcome.timedOut) := by
  refine ⟨?_, ?_, ?_⟩
  · intro statuses p0 p1 p2 p3 h0 h1 h2 h3
    have hnt : ∀ j, j < 3 → NonTerminal (statuses (0 + j)) := by
      intro j hj
      rw [Nat.zero_add]
      interval_cases j
      · rw [h0]; exact ⟨by simp, by simp [failureStatuses]⟩
      · rw [h1]; exact ⟨by simp, by simp [failureStatuses]⟩
      · rw [h2]; exact ⟨by simp, by simp [failureStatuses]⟩
    have hel : ∀ j, j < 3 → 0 + pollIntervalMs * j < defaultMaxWaitMs := by
      intro j hj
      simp only [pollIntervalMs, defaultMaxWaitMs]
      omega
    rw [waitForTaskCompletion,
      pollGo_skip statuses defaultMaxWaitMs 3 0 0 [] hnt hel]
    have h3' : statuses (0 + 3) = ⟨p3, "success"⟩ := by
      rw [Nat.zero_add]; exact h3
    conv_lhs => rw [pollGo]
    rw [if_pos (by simp only [pollIntervalMs, defaultMaxWaitMs]; omega),
      if_pos (by rw [h3'])]
    rw [h3']
    simp [show List.range 3 = [0, 1, 2] from rfl, h0, h1, h2]
  · intro statuses k hpre hfail hk
    have hnt : ∀ j, j < k → NonTerminal (statuses (0 + j)) := by
      intro j hj
      rw [Nat.zero_add]
      exact hpre j hj
    have hel : ∀ j, j < k → 0 + pollIntervalMs * j < defaultMaxWaitMs := by
      intro j hj
      simp only [pollIntervalMs, defaultMaxWaitMs] at *
      omega
    rw [waitForTaskCompletion,
      pollGo_skip statuses defaultMaxWaitMs k 0 0 [] hnt hel]
    have hfail' : (statuses (0 + k)).status ∈ failureStatuses := by
      rw [Nat.zero_add]; exact hfail
    have hns : ¬(statuses (0 + k)).status = "success" := by
      intro he
      have hnotin : "success" ∉ failureStatuses := by decide
      exact hnotin (he ▸ hfail')
    conv_lhs => rw [pollGo]
    rw [if_pos (by simp only [pollIntervalMs, defaultMaxWaitMs] at *; omega),
      if_neg hns, if_pos hfail']
    rw [Nat.zero_add]
  · intro statuses maxWait hnt
    rw [waitForTaskCompletion]
    refine pollGo_timeout statuses maxWait maxWait 0 0 [] (by omega) ?_
    intro j hj
    rw [Nat.zero_add]
    exact hnt j (by simpa using hj)

/-- Status stream [queued, running, running, success]. -/
def statusesHappyPath : Nat → TaskPoll := fun n =>
  match n with
  | 0 => ⟨5, "queued"⟩
  | 1 => ⟨40, "running"⟩
  | 2 => ⟨80, "running"⟩
  | _ => ⟨100, "success"⟩

/-- Status stream hitting the `failed` terminal state on the 2nd poll. -/
def statusesThenFailed : Nat → TaskPoll := fun n =>
  match n with
  | 0 => ⟨10, "queued"⟩
  | _ => ⟨10, "failed"⟩

/-- Status stream that never reaches a terminal state. -/
def statusesNeverDone : Nat → TaskPoll := fun _ => ⟨50, "running"⟩

theorem c8_witness :
    waitForTaskCompletion statusesHappyPath defaultMaxWaitMs =
      (PollOutcome.success ⟨100, "success"⟩,
       [(5, "queued"), (40, "running"), (80, "running"), (100, "success")]) ∧
    (waitForTaskCompletion statusesThenFailed defaultMaxWaitMs).1 =
      PollOutcome.taskFailed "failed" ∧
    (waitForTaskCompletion statusesNeverDone 9000).1 =
      PollOutcome.timedOut :=
  ⟨c8_task_poller_behaviour.1 statusesHappyPath 5 40 80 100 rfl rfl rfl rfl,
   c8_task_poller_behaviour.2.1 statusesThenFailed 1
     (by
       intro j hj
       interval_cases j
       exact ⟨by simp [statusesThenFailed], by simp [statusesThenFailed, failureStatuses]⟩)
     (by decide) (by decide),
   c8_task_poller_behaviour.2.2 statusesNeverDone 9000
     (fun j _ => ⟨by simp [statusesNeverDone],
       by simp [statusesNeverDone, failureStatuses]⟩)⟩

/-! ## Prompt-optimizer result handling (`optimizePrompt`,
`services/geminiService.ts`). -/

/-- Trimming whitespace from both ends of a character sequence
(the `.trim()` call on the provider's text). -/
def trimChars (s : List Char) : List Char :=
  ((s.dropWhile Char.isWhitespace).reverse.dropWhile Char.isWhitespace).reverse

/-- `return response.text?.trim() || "";` — the provider's text may be
absent (`none`); the optional chain yields the trimmed text or
`undefined`, and `|| ""` replaces an absent or empty (falsy) result
with the empty string.  The `Except` result type records that the
operation could in principle fail, making it visible that this result
handling never produces an error. -/
def optimizePromptResult (text : Option String) : Except String String :=
  match text with
  | some t =>
    Except.ok (String.mk
      (if trimChars t.toList = [] then [] else trimChars t.toList))
  | none => Except.ok ""

/-- C9 counterexample: when the provider returns empty text (no text at
all, or only whitespace), `optimizePrompt` returns the empty string
successfully — it does not fail with a NoContent error, contradicting
the claim. -/
theorem c9_counterexample :
    optimizePromptResult none = Except.ok "" ∧
    (optimizePromptResult none).isOk = true ∧
    optimizePromptResult (some "   ") = Except.ok "" ∧
    (optimizePromptResult (some "   ")).isOk = true :=
  ⟨rfl, rfl, rfl, rfl⟩

/-- C9 amended: for every provider response with empty text (absent
text, or text that trims to nothing), `optimizePrompt` succeeds and
returns the empty string; no NoContent error is raised. -/
theorem c9_empty_text_returns_empty (text : Option String)
    (h : text = none ∨ ∃ s, text = some s ∧ trimChars s.toList = []) :
    optimizePromptResult text = Except.ok "" := by
  rcases h with h | ⟨s, hs, ht⟩
  · subst h; rfl
  · subst hs
    simp only [optimizePromptResult, ht, if_pos]

theorem c9_witness :
    ((none : Option String) = none ∨
      ∃ s, (none : Option String) = some s ∧ trimChars s.toList = []) ∧
    optimizePromptResult none = Except.ok "" :=
  ⟨Or.inl rfl, c9_empty_text_returns_empty none (Or.inl rfl)⟩

/-! ## Image-generation request (`generateAvatarImage`,
`services/geminiService.ts`). -/

/-- The `imageConfig` block of the request. -/
structure ImageConfig where
  aspectRatio : String
  imageSize : String
deriving Repr, DecidableEq

/-- One entry of the request `contents`: prompt text or inline image
data. -/
inductive ContentPart where
  | text (s : String)
  | inlineData (mimeType data : String)
deriving Repr, DecidableEq

/-- The request `generateAvatarImage` builds. -/
structure ImageRequest where
  model : String
  contents : List ContentPart
  config : ImageConfig
deriving Repr, DecidableEq

/-- The request sent by `generateAvatarImage`: the optimized prompt,
the optional reference image as inline `image/jpeg` data, and the
hard-coded `imageConfig { aspectRatio: "16:9", imageSize: "2K" }`. -/
def generateAvatarImageRequest (optimizedPrompt : String)
    (referenceImageBase64 : Option String) : ImageRequest :=
  { model := "gemini-3-pro-image-preview"
  , contents := [ContentPart.text optimizedPrompt] ++
      (match referenceImageBase64 with
       | some r => [ContentPart.inlineData "image/jpeg" r]
       | none => [])
  , config := { aspectRatio := "16:9", imageSize := "2K" } }

/-- C10 counterexample: the aspect ratio `generateAvatarImage`
requests is the widescreen `"16:9"`, not the square `"1:1"`,
contradicting the claim that the request is configured with a square
aspect ratio. -/
theorem c10_counterexample :
    (generateAvatarImageRequest "portrait prompt" none).config.aspectRatio
      = "16:9" ∧
    (generateAvatarImageRequest "portrait prompt" none).config.aspectRatio
      ≠ "1:1" := by decide

/-- C10 amended: every `generateAvatarImage` call requests the fixed
configuration aspect ratio `"16:9"` (widescreen, not square) and the
high-resolution `"2K"` tier; the configuration does not vary with the
call's arguments. -/
theorem c10_fixed_image_config (prompt : String) (ref : Option String) :
    (generateAvatarImageRequest prompt ref).config =
      { aspectRatio := "16:9", imageSize := "2K" } := rfl

end Incarnate
